import Mathlib

/-!
Verification of the DECO6500-A2 accessibility learning app against its
specification.  The development shallowly embeds the computational parts of
the repository: the Pomodoro timer state machine shared by
`FocusTimer.tsx` and `PersistentTimer.tsx`, the bionic-reading text
transform of `BionicReader.tsx`, the localStorage persistence of
`PersistentTimer.tsx`, the progress bookkeeping of `LearningContext.tsx`,
and the quiz logic of `InteractiveQuizMode.tsx`.  JavaScript numbers are
modelled as `ℚ` (or `ℤ`/`ℕ` where the program only ever stores integers),
`Math.ceil`/`Math.round` as `Int.ceil` / half-up rounding, and fallible
browser calls as explicit `Option`/`Bool` parameters.
-/

namespace DECO

/-! ### JavaScript numeric helpers -/

/-- Model of `Math.round`: rounds half away from zero upward (toward `+∞`). -/
def jsRound (q : ℚ) : ℤ := ⌊q + (1 : ℚ) / 2⌋

/-! ### Pomodoro timer state machine

From `FocusTimer.tsx` and `PersistentTimer.tsx`.  Both components keep the
same four pieces of state (`timeLeft`, `isRunning`, `isBreak`,
`sessionCount`) and use the classic Pomodoro durations.  `timeLeft` is
modelled as `ℤ` so that non-negativity is a real invariant;
`sessionCount` is a `ℕ` because the machine only ever writes `0` and
successor values to it. -/

structure TimerState where
  timeLeft : ℤ
  isRunning : Bool
  isBreak : Bool
  sessionCount : ℕ
deriving DecidableEq

/-- Source: `const focusTime = 25 * 60` (= `DEFAULT_FOCUS_DURATION`). -/
def focusTime : ℤ := 25 * 60

/-- Source: `const shortBreakTime = 5 * 60` (= `DEFAULT_SHORT_BREAK_DURATION`). -/
def shortBreakTime : ℤ := 5 * 60

/-- Source: `const longBreakTime = 15 * 60` (= `DEFAULT_LONG_BREAK_DURATION`). -/
def longBreakTime : ℤ := 15 * 60

/-- Initial component state: `useState(25 * 60)`, not running, not on a
break, zero completed sessions. -/
def initialTimerState : TimerState :=
  { timeLeft := focusTime, isRunning := false, isBreak := false, sessionCount := 0 }

/-- One second of the `setInterval` callback in `PersistentTimer.tsx`
(lines 242–255): when running, `prev > 0 ? prev - 1 : 0`; when not
running the interval is not installed. -/
def tickTimer (s : TimerState) : TimerState :=
  if s.isRunning then
    { s with timeLeft := if 0 < s.timeLeft then s.timeLeft - 1 else 0 }
  else s

/-- One second of the `setInterval` callback in `FocusTimer.tsx`
(lines 21–27): the interval only exists while `isRunning && timeLeft > 0`,
and then decrements. -/
def tickFocusTimer (s : TimerState) : TimerState :=
  if s.isRunning ∧ 0 < s.timeLeft then { s with timeLeft := s.timeLeft - 1 } else s

/-- The completion effect of `PersistentTimer.tsx` (lines 260–283): when
the timer is running and `timeLeft` is zero, stop the countdown and
switch period.  A finished break returns to a full focus period; a
finished focus period increments the session count and starts a long
break exactly when the new count is a multiple of four.  `FocusTimer.tsx`
(lines 28–42) performs the same state transition (its guard is just
`timeLeft === 0`, which coincides on the running states the claims are
about).  The calls into the learning context (`addPoints(15)`,
`earnAchievement`) and the `onSessionComplete`/`onBreakComplete`
callbacks touch no timer state and are not modelled. -/
def completeTimer (s : TimerState) : TimerState :=
  if s.isRunning ∧ s.timeLeft = 0 then
    if s.isBreak then
      { s with isRunning := false, isBreak := false, timeLeft := focusTime }
    else
      let nextSession := s.sessionCount + 1
      { s with isRunning := false, sessionCount := nextSession, isBreak := true,
               timeLeft := if nextSession % 4 = 0 then longBreakTime else shortBreakTime }
  else s

/-- Handlers `toggleTimer` / `handleToggle`: flip the running flag. -/
def toggleTimer (s : TimerState) : TimerState :=
  { s with isRunning := !s.isRunning }

/-- Handler `resetTimer` of `FocusTimer.tsx`: stop and restore the duration of the
current period, keeping `isBreak` and `sessionCount`. -/
def resetTimer (s : TimerState) : TimerState :=
  { s with isRunning := false,
           timeLeft :=
             if s.isBreak then
               (if s.sessionCount % 4 = 0 then longBreakTime else shortBreakTime)
             else focusTime }

/-- Handler `handleReset` of `PersistentTimer.tsx`: restore the initial state. -/
def handleReset (_s : TimerState) : TimerState :=
  { timeLeft := focusTime, isRunning := false, isBreak := false, sessionCount := 0 }

/-- States reachable from the initial timer state by ticks, completions,
toggles and resets (of either component). -/
inductive ReachableTimer : TimerState → Prop
  | init : ReachableTimer initialTimerState
  | tick {s} : ReachableTimer s → ReachableTimer (tickTimer s)
  | tickF {s} : ReachableTimer s → ReachableTimer (tickFocusTimer s)
  | complete {s} : ReachableTimer s → ReachableTimer (completeTimer s)
  | toggle {s} : ReachableTimer s → ReachableTimer (toggleTimer s)
  | reset {s} : ReachableTimer s → ReachableTimer (resetTimer s)
  | resetAll {s} : ReachableTimer s → ReachableTimer (handleReset s)

/-- C1: a focus countdown reaching zero while running stops the timer,
increments the session count by one, enters a break, and picks the
15-minute long break exactly when the new session count is divisible by
four (5-minute short break otherwise). -/
theorem focus_completion_spec (s : TimerState)
    (hrun : s.isRunning = true) (hz : s.timeLeft = 0) (hb : s.isBreak = false) :
    (completeTimer s).isRunning = false ∧
    (completeTimer s).sessionCount = s.sessionCount + 1 ∧
    (completeTimer s).isBreak = true ∧
    (completeTimer s).timeLeft =
      (if 4 ∣ (s.sessionCount + 1) then 15 * 60 else 5 * 60) := by
  have h4 : ((s.sessionCount + 1) % 4 = 0) ↔ (4 ∣ (s.sessionCount + 1)) := by omega
  simp [completeTimer, hrun, hz, hb, longBreakTime, shortBreakTime, h4]

/-- Witness for `focus_completion_spec` at a concrete running state. -/
theorem focus_completion_spec_witness :
    (completeTimer ⟨0, true, false, 3⟩).isRunning = false ∧
    (completeTimer ⟨0, true, false, 3⟩).sessionCount = 3 + 1 ∧
    (completeTimer ⟨0, true, false, 3⟩).isBreak = true ∧
    (completeTimer ⟨0, true, false, 3⟩).timeLeft =
      (if 4 ∣ (3 + 1) then 15 * 60 else 5 * 60) :=
  focus_completion_spec ⟨0, true, false, 3⟩ rfl rfl rfl

/-- C3: a break countdown reaching zero while running returns the machine
to focus mode with a full focus duration and leaves the session count
unchanged. -/
theorem break_completion_spec (s : TimerState)
    (hrun : s.isRunning = true) (hz : s.timeLeft = 0) (hb : s.isBreak = true) :
    (completeTimer s).isBreak = false ∧
    (completeTimer s).timeLeft = 25 * 60 ∧
    (completeTimer s).sessionCount = s.sessionCount := by
  simp [completeTimer, hrun, hz, hb, focusTime]

/-- Witness for `break_completion_spec` at a concrete running break. -/
theorem break_completion_spec_witness :
    (completeTimer ⟨0, true, true, 2⟩).isBreak = false ∧
    (completeTimer ⟨0, true, true, 2⟩).timeLeft = 25 * 60 ∧
    (completeTimer ⟨0, true, true, 2⟩).sessionCount = 2 :=
  break_completion_spec ⟨0, true, true, 2⟩ rfl rfl rfl

/-- C8: every state reachable by ticks, completions, toggles and resets
keeps a non-negative remaining time, and a tick taken at zero remaining
time leaves it at zero. -/
theorem timer_time_nonneg (s : TimerState) (h : ReachableTimer s) :
    0 ≤ s.timeLeft ∧
    (∀ t : TimerState, t.timeLeft = 0 →
      (tickTimer t).timeLeft = 0 ∧ (tickFocusTimer t).timeLeft = 0) := by
  refine ⟨?_, ?_⟩
  · induction h with
    | init => simp [initialTimerState, focusTime]
    | tick _ ih =>
        simp only [tickTimer]
        split
        · split <;> dsimp only <;> omega
        · exact ih
    | tickF _ ih =>
        simp only [tickFocusTimer]
        split
        · dsimp only
          omega
        · exact ih
    | complete _ ih =>
        simp only [completeTimer]
        split
        · split
          · simp [focusTime]
          · split <;> simp [longBreakTime, shortBreakTime]
        · exact ih
    | toggle _ ih => simpa [toggleTimer] using ih
    | reset _ ih =>
        simp only [resetTimer]
        split
        · split <;> simp [longBreakTime, shortBreakTime]
        · simp [focusTime]
    | resetAll _ ih => simp [handleReset, focusTime]
  · intro t hz
    constructor
    · simp only [tickTimer]
      split
      · dsimp only
        simp [hz]
      · exact hz
    · simp only [tickFocusTimer]
      split
      · dsimp only
        omega
      · exact hz

/-- Witness for `timer_time_nonneg` at the initial state. -/
theorem timer_time_nonneg_witness :
    0 ≤ initialTimerState.timeLeft ∧
    (∀ t : TimerState, t.timeLeft = 0 →
      (tickTimer t).timeLeft = 0 ∧ (tickFocusTimer t).timeLeft = 0) :=
  timer_time_nonneg initialTimerState ReachableTimer.init

/-! ### Learning progress context

From `LearningContext.tsx`.  The `ReadingProgress` record holds one
sub-record per learning mode; `updateProgress` merges a partial update
into one mode and clamps that mode's current index into
`[0, total]`. -/

structure StandardTextProgress where
  currentSection : ℚ
  totalSections : ℚ
  readingTime : ℚ
deriving DecidableEq

structure AudioTextProgress where
  currentSentence : ℚ
  totalSentences : ℚ
  playbackTime : ℚ
deriving DecidableEq

structure VisualProgress where
  currentDiagram : ℚ
  totalDiagrams : ℚ
  viewTime : ℚ
deriving DecidableEq

structure QuizProgress where
  currentQuestion : ℚ
  totalQuestions : ℚ
  score : ℚ
  completedQuestions : List ℚ
deriving DecidableEq

structure ReadingProgress where
  standardText : StandardTextProgress
  audioText : AudioTextProgress
  visual : VisualProgress
  quiz : QuizProgress
deriving DecidableEq

/-- Constant `initialProgress` of `LearningContext.tsx` (lines 60–82). -/
def initialProgress : ReadingProgress :=
  { standardText := { currentSection := 0, totalSections := 5, readingTime := 0 },
    audioText := { currentSentence := 0, totalSentences := 25, playbackTime := 0 },
    visual := { currentDiagram := 0, totalDiagrams := 4, viewTime := 0 },
    quiz := { currentQuestion := 0, totalQuestions := 10, score := 0, completedQuestions := [] } }

/-- A `Partial<...>` update for one mode: absent properties are `none`.
Every call site in the repository passes keys of the addressed mode, so
the partial is typed per mode. -/
structure StandardTextPatch where
  currentSection : Option ℚ
  totalSections : Option ℚ
  readingTime : Option ℚ

structure AudioTextPatch where
  currentSentence : Option ℚ
  totalSentences : Option ℚ
  playbackTime : Option ℚ

structure VisualPatch where
  currentDiagram : Option ℚ
  totalDiagrams : Option ℚ
  viewTime : Option ℚ

structure QuizPatch where
  currentQuestion : Option ℚ
  totalQuestions : Option ℚ
  score : Option ℚ
  completedQuestions : Option (List ℚ)

/-- The `mode` argument together with the partial update. -/
inductive ProgressUpdate
  | standardText (p : StandardTextPatch)
  | audioText (p : AudioTextPatch)
  | visual (p : VisualPatch)
  | quiz (p : QuizPatch)

/-- Model of `Math.min(Math.max(c, 0), t)` — the clamp applied to each mode's
current index in `updateProgress`. -/
def clampIndex (c t : ℚ) : ℚ := min (max c 0) t

/-- Function `updateProgress` of `LearningContext.tsx` (lines 124–154): spread the
previous mode record, spread the partial over it, then clamp the mode's
current index into `[0, total]` (the `'field' in updatedMode` guards are
always satisfied for the addressed mode's own index/total pair, and only
for it). -/
def updateProgress (prev : ReadingProgress) (u : ProgressUpdate) : ReadingProgress :=
  match u with
  | .standardText p =>
      let merged : StandardTextProgress :=
        { currentSection := p.currentSection.getD prev.standardText.currentSection,
          totalSections := p.totalSections.getD prev.standardText.totalSections,
          readingTime := p.readingTime.getD prev.standardText.readingTime }
      { prev with standardText :=
          { merged with currentSection := clampIndex merged.currentSection merged.totalSections } }
  | .audioText p =>
      let merged : AudioTextProgress :=
        { currentSentence := p.currentSentence.getD prev.audioText.currentSentence,
          totalSentences := p.totalSentences.getD prev.audioText.totalSentences,
          playbackTime := p.playbackTime.getD prev.audioText.playbackTime }
      { prev with audioText :=
          { merged with currentSentence := clampIndex merged.currentSentence merged.totalSentences } }
  | .visual p =>
      let merged : VisualProgress :=
        { currentDiagram := p.currentDiagram.getD prev.visual.currentDiagram,
          totalDiagrams := p.totalDiagrams.getD prev.visual.totalDiagrams,
          viewTime := p.viewTime.getD prev.visual.viewTime }
      { prev with visual :=
          { merged with currentDiagram := clampIndex merged.currentDiagram merged.totalDiagrams } }
  | .quiz p =>
      let merged : QuizProgress :=
        { currentQuestion := p.currentQuestion.getD prev.quiz.currentQuestion,
          totalQuestions := p.totalQuestions.getD prev.quiz.totalQuestions,
          score := p.score.getD prev.quiz.score,
          completedQuestions := p.completedQuestions.getD prev.quiz.completedQuestions }
      { prev with quiz :=
          { merged with currentQuestion := clampIndex merged.currentQuestion merged.totalQuestions } }

/-- Function `getOverallCompletion` of `LearningContext.tsx` (lines 172–179). -/
def getOverallCompletion (p : ReadingProgress) : ℤ :=
  let textCompletion := p.standardText.currentSection / p.standardText.totalSections
  let audioCompletion := p.audioText.currentSentence / p.audioText.totalSentences
  let visualCompletion := p.visual.currentDiagram / p.visual.totalDiagrams
  let quizCompletion := (p.quiz.completedQuestions.length : ℚ) / p.quiz.totalQuestions
  let avg := (textCompletion + audioCompletion + visualCompletion + quizCompletion) / 4
  jsRound (avg * 100)

/-- The clamp lands in `[0, t]` whenever `t` is non-negative. -/
theorem clampIndex_mem (c t : ℚ) (h : 0 ≤ t) :
    0 ≤ clampIndex c t ∧ clampIndex c t ≤ t :=
  ⟨le_min (le_max_right c 0) h, min_le_right _ _⟩

/-- C5 (amended): for every call to `updateProgress`, the other three
modes are unchanged and every non-index field of the addressed mode is
the patched value when present and the previous value otherwise; the
addressed mode's current index is always re-clamped to
`min (max current 0) total` — even when it is absent from the partial
update — and therefore lies between `0` and the mode's total inclusive
whenever that (merged) total is non-negative. -/
theorem updateProgress_spec :
    (∀ prev p,
      (updateProgress prev (.standardText p)).audioText = prev.audioText ∧
      (updateProgress prev (.standardText p)).visual = prev.visual ∧
      (updateProgress prev (.standardText p)).quiz = prev.quiz ∧
      (updateProgress prev (.standardText p)).standardText.totalSections
        = p.totalSections.getD prev.standardText.totalSections ∧
      (updateProgress prev (.standardText p)).standardText.readingTime
        = p.readingTime.getD prev.standardText.readingTime ∧
      (updateProgress prev (.standardText p)).standardText.currentSection
        = clampIndex (p.currentSection.getD prev.standardText.currentSection)
            (p.totalSections.getD prev.standardText.totalSections) ∧
      (0 ≤ p.totalSections.getD prev.standardText.totalSections →
        0 ≤ (updateProgress prev (.standardText p)).standardText.currentSection ∧
        (updateProgress prev (.standardText p)).standardText.currentSection
          ≤ (updateProgress prev (.standardText p)).standardText.totalSections)) ∧
    (∀ prev p,
      (updateProgress prev (.audioText p)).standardText = prev.standardText ∧
      (updateProgress prev (.audioText p)).visual = prev.visual ∧
      (updateProgress prev (.audioText p)).quiz = prev.quiz ∧
      (updateProgress prev (.audioText p)).audioText.totalSentences
        = p.totalSentences.getD prev.audioText.totalSentences ∧
      (updateProgress prev (.audioText p)).audioText.playbackTime
        = p.playbackTime.getD prev.audioText.playbackTime ∧
      (updateProgress prev (.audioText p)).audioText.currentSentence
        = clampIndex (p.currentSentence.getD prev.audioText.currentSentence)
            (p.totalSentences.getD prev.audioText.totalSentences) ∧
      (0 ≤ p.totalSentences.getD prev.audioText.totalSentences →
        0 ≤ (updateProgress prev (.audioText p)).audioText.currentSentence ∧
        (updateProgress prev (.audioText p)).audioText.currentSentence
          ≤ (updateProgress prev (.audioText p)).audioText.totalSentences)) ∧
    (∀ prev p,
      (updateProgress prev (.visual p)).standardText = prev.standardText ∧
      (updateProgress prev (.visual p)).audioText = prev.audioText ∧
      (updateProgress prev (.visual p)).quiz = prev.quiz ∧
      (updateProgress prev (.visual p)).visual.totalDiagrams
        = p.totalDiagrams.getD prev.visual.totalDiagrams ∧
      (updateProgress prev (.visual p)).visual.viewTime
        = p.viewTime.getD prev.visual.viewTime ∧
      (updateProgress prev (.visual p)).visual.currentDiagram
        = clampIndex (p.currentDiagram.getD prev.visual.currentDiagram)
            (p.totalDiagrams.getD prev.visual.totalDiagrams) ∧
      (0 ≤ p.totalDiagrams.getD prev.visual.totalDiagrams →
        0 ≤ (updateProgress prev (.visual p)).visual.currentDiagram ∧
        (updateProgress prev (.visual p)).visual.currentDiagram
          ≤ (updateProgress prev (.visual p)).visual.totalDiagrams)) ∧
    (∀ prev p,
      (updateProgress prev (.quiz p)).standardText = prev.standardText ∧
      (updateProgress prev (.quiz p)).audioText = prev.audioText ∧
      (updateProgress prev (.quiz p)).visual = prev.visual ∧
      (updateProgress prev (.quiz p)).quiz.totalQuestions
        = p.totalQuestions.getD prev.quiz.totalQuestions ∧
      (updateProgress prev (.quiz p)).quiz.score = p.score.getD prev.quiz.score ∧
      (updateProgress prev (.quiz p)).quiz.completedQuestions
        = p.completedQuestions.getD prev.quiz.completedQuestions ∧
      (updateProgress prev (.quiz p)).quiz.currentQuestion
        = clampIndex (p.currentQuestion.getD prev.quiz.currentQuestion)
            (p.totalQuestions.getD prev.quiz.totalQuestions) ∧
      (0 ≤ p.totalQuestions.getD prev.quiz.totalQuestions →
        0 ≤ (updateProgress prev (.quiz p)).quiz.currentQuestion ∧
        (updateProgress prev (.quiz p)).quiz.currentQuestion
          ≤ (updateProgress prev (.quiz p)).quiz.totalQuestions)) := by
  refine ⟨fun prev p => ?_, fun prev p => ?_, fun prev p => ?_, fun prev p => ?_⟩
  · exact ⟨rfl, rfl, rfl, rfl, rfl, rfl, fun h => clampIndex_mem _ _ h⟩
  · exact ⟨rfl, rfl, rfl, rfl, rfl, rfl, fun h => clampIndex_mem _ _ h⟩
  · exact ⟨rfl, rfl, rfl, rfl, rfl, rfl, fun h => clampIndex_mem _ _ h⟩
  · exact ⟨rfl, rfl, rfl, rfl, rfl, rfl, rfl, fun h => clampIndex_mem _ _ h⟩

/-- Witness for `updateProgress_spec`: a concrete call whose merged total
is non-negative places the index inside the bounds. -/
theorem updateProgress_spec_witness :
    0 ≤ (updateProgress initialProgress
          (.standardText ⟨some 3, none, none⟩)).standardText.currentSection ∧
    (updateProgress initialProgress
          (.standardText ⟨some 3, none, none⟩)).standardText.currentSection
      ≤ (updateProgress initialProgress
          (.standardText ⟨some 3, none, none⟩)).standardText.totalSections :=
  (updateProgress_spec.1 initialProgress ⟨some 3, none, none⟩).2.2.2.2.2.2 (by decide)

/-- C5 fails as stated: starting from a stored state whose
`standardText` has `currentSection = 7` and `totalSections = -5`
(`LearningContext.tsx` loads persisted progress without validation), an
update touching no field at all still rewrites `currentSection` to `-5`,
so a field absent from the partial update does not keep its previous
value and the index is not between `0` and the total. -/
theorem updateProgress_counterexample :
    ¬ ((updateProgress
        { standardText := { currentSection := 7, totalSections := -5, readingTime := 0 },
          audioText := { currentSentence := 0, totalSentences := 25, playbackTime := 0 },
          visual := { currentDiagram := 0, totalDiagrams := 4, viewTime := 0 },
          quiz := { currentQuestion := 0, totalQuestions := 10, score := 0,
                    completedQuestions := [] } }
        (.standardText ⟨none, none, none⟩)).standardText.currentSection = 7) ∧
    ¬ (0 ≤ (updateProgress
        { standardText := { currentSection := 7, totalSections := -5, readingTime := 0 },
          audioText := { currentSentence := 0, totalSentences := 25, playbackTime := 0 },
          visual := { currentDiagram := 0, totalDiagrams := 4, viewTime := 0 },
          quiz := { currentQuestion := 0, totalQuestions := 10, score := 0,
                    completedQuestions := [] } }
        (.standardText ⟨none, none, none⟩)).standardText.currentSection) := by
  constructor <;> decide

/-- C7: with positive totals, `getOverallCompletion` is the half-up
rounding of `100` times the equally-weighted arithmetic mean of the four
mode completion fractions. -/
theorem getOverallCompletion_spec (p : ReadingProgress)
    (h1 : 0 < p.standardText.totalSections) (h2 : 0 < p.audioText.totalSentences)
    (h3 : 0 < p.visual.totalDiagrams) (h4 : 0 < p.quiz.totalQuestions) :
    getOverallCompletion p =
      jsRound (100 * ((p.standardText.currentSection / p.standardText.totalSections +
        p.audioText.currentSentence / p.audioText.totalSentences +
        p.visual.currentDiagram / p.visual.totalDiagrams +
        (p.quiz.completedQuestions.length : ℚ) / p.quiz.totalQuestions) / 4)) := by
  simp [getOverallCompletion, mul_comm]

/-- Witness for `getOverallCompletion_spec` at the initial progress. -/
theorem getOverallCompletion_spec_witness :
    getOverallCompletion initialProgress =
      jsRound (100 * ((initialProgress.standardText.currentSection
          / initialProgress.standardText.totalSections +
        initialProgress.audioText.currentSentence
          / initialProgress.audioText.totalSentences +
        initialProgress.visual.currentDiagram
          / initialProgress.visual.totalDiagrams +
        (initialProgress.quiz.completedQuestions.length : ℚ)
          / initialProgress.quiz.totalQuestions) / 4)) :=
  getOverallCompletion_spec initialProgress (by decide) (by decide) (by decide) (by decide)

/-! ### Interactive quiz mode

From `InteractiveQuizMode.tsx` (first document).  The component keeps the
current question index, the tentatively selected option, whether the
result is shown, the score and the list of completed question indices.
The question indices written to the state are always natural numbers
(`0`, `c + 1` under a bound check, or reset to `0`), so they are
modelled as `ℕ`. -/

structure QuizQuestion where
  id : ℤ
  question : String
  options : List String
  correct : ℤ
  explanation : String
  correctExplanation : String
  incorrectExplanation : String
  estimatedTime : ℤ
deriving DecidableEq

/-- The question bank of `InteractiveQuizMode.tsx` (lines 47–98). -/
def questions : List QuizQuestion :=
  [ { id := 1,
      question := "Which of the following is unique to plant cells?",
      options := ["Mitochondria", "Ribosomes", "Chloroplast", "Golgi Apparatus"],
      correct := 2,
      explanation := "Chloroplasts are unique to plant cells and are responsible for photosynthesis, converting light energy into chemical energy.",
      correctExplanation := "Excellent! Chloroplasts are indeed unique to plant cells. They contain chlorophyll and are the sites where photosynthesis occurs, converting sunlight, carbon dioxide and water into glucose and oxygen.",
      incorrectExplanation := "Not quite. While mitochondria, ribosomes and Golgi apparatus are found in plant cells, they also exist in animal cells. Chloroplasts are the organelles unique to plants.",
      estimatedTime := 45 },
    { id := 2,
      question := "What is the primary function of the cell membrane?",
      options := ["Energy production", "Protein synthesis", "Selective permeability", "DNA storage"],
      correct := 2,
      explanation := "The cell membrane controls what enters and exits the cell through selective permeability, maintaining cellular homeostasis.",
      correctExplanation := "Perfect! The cell membrane’s selective permeability is crucial for maintaining cellular homeostasis by controlling which substances can enter or leave the cell.",
      incorrectExplanation := "The cell membrane’s main job isn’t energy production, protein synthesis or DNA storage. Its primary function is selective permeability – acting as a gatekeeper for the cell.",
      estimatedTime := 40 },
    { id := 3,
      question := "Which component gives the cell membrane its fluid properties?",
      options := ["Proteins", "Carbohydrates", "Phospholipids", "Nucleic acids"],
      correct := 2,
      explanation := "Phospholipids form the bilayer structure and their fatty acid tails create the fluid nature of the membrane.",
      correctExplanation := "Great work! Phospholipids form the bilayer foundation of the membrane, and their fatty acid tails create the fluid, flexible nature that allows the membrane to bend and move.",
      incorrectExplanation := "While proteins and carbohydrates are important membrane components, it’s the phospholipid bilayer that gives the membrane its characteristic fluid properties.",
      estimatedTime := 35 },
    { id := 4,
      question := "What happens to a plant cell in a hypotonic solution?",
      options := ["It shrinks", "It bursts", "It becomes turgid", "Nothing changes"],
      correct := 2,
      explanation := "In a hypotonic solution, water enters the cell, making it turgid (swollen but maintained by the cell wall).",
      correctExplanation := "Exactly right! In a hypotonic solution, water moves into the plant cell, causing it to swell and become turgid. The rigid cell wall prevents it from bursting.",
      incorrectExplanation := "In a hypotonic solution, water moves into the cell rather than out of it. Plant cells don’t burst like animal cells because they have a protective cell wall.",
      estimatedTime := 50 },
    { id := 5,
      question := "Which type of transport requires energy input?",
      options := ["Diffusion", "Osmosis", "Active transport", "Facilitated diffusion"],
      correct := 2,
      explanation := "Active transport moves substances against their concentration gradient, requiring energy (usually ATP).",
      correctExplanation := "Correct! Active transport requires energy because it moves substances against their concentration gradient, from low to high concentration.",
      incorrectExplanation := "Diffusion, osmosis and facilitated diffusion are all passive processes that don’t require energy. Only active transport needs energy input to work against concentration gradients.",
      estimatedTime := 40 } ]

structure QuizComponentState where
  currentQuestion : ℕ
  selectedAnswer : Option ℤ
  showResult : Bool
  score : ℤ
  completedQuestions : List ℕ
deriving DecidableEq

/-- Handler `handleSubmit` of `InteractiveQuizMode.tsx` (lines 134–143):
an early return when nothing is selected; otherwise show the result, add
one point when the selection matches `current.correct`, and append the
current question index.  The `current` question is resolved at render
time from `questions[currentQuestion]` and closed over by the handler. -/
def handleSubmit (current : QuizQuestion) (s : QuizComponentState) : QuizComponentState :=
  match s.selectedAnswer with
  | none => s
  | some a =>
      let afterShow := { s with showResult := true }
      let afterScore :=
        if a = current.correct then { afterShow with score := afterShow.score + 1 } else afterShow
      { afterScore with completedQuestions := afterScore.completedQuestions ++ [s.currentQuestion] }

/-- C6: submitting with a selection adds exactly one point when the
selected option index equals the current question's correct index and
leaves the score unchanged otherwise, appending the current question
index to the completed list in both cases; submitting with no selection
changes nothing. -/
theorem handleSubmit_spec (current : QuizQuestion) (s : QuizComponentState)
    (hq : questions.get? s.currentQuestion = some current) :
    (s.selectedAnswer = none → handleSubmit current s = s) ∧
    (∀ a, s.selectedAnswer = some a →
      (handleSubmit current s).score =
        (if a = current.correct then s.score + 1 else s.score) ∧
      (handleSubmit current s).completedQuestions
        = s.completedQuestions ++ [s.currentQuestion] ∧
      (handleSubmit current s).currentQuestion = s.currentQuestion ∧
      (handleSubmit current s).selectedAnswer = s.selectedAnswer ∧
      (handleSubmit current s).showResult = true) := by
  constructor
  · intro h
    simp [handleSubmit, h]
  · intro a ha
    simp only [handleSubmit, ha]
    by_cases hc : a = current.correct
    · simp [hc]
    · simp [hc]

/-- Witness for `handleSubmit_spec`: submitting the correct option on the
first question. -/
theorem handleSubmit_spec_witness :
    (handleSubmit
        { id := 1,
          question := "Which of the following is unique to plant cells?",
          options := ["Mitochondria", "Ribosomes", "Chloroplast", "Golgi Apparatus"],
          correct := 2,
          explanation := "Chloroplasts are unique to plant cells and are responsible for photosynthesis, converting light energy into chemical energy.",
          correctExplanation := "Excellent! Chloroplasts are indeed unique to plant cells.",
          incorrectExplanation := "Not quite. Chloroplasts are the organelles unique to plants.",
          estimatedTime := 45 }
        ⟨0, some 2, false, 0, []⟩).score = (if (2 : ℤ) = 2 then 0 + 1 else 0) ∧
    (handleSubmit
        { id := 1,
          question := "Which of the following is unique to plant cells?",
          options := ["Mitochondria", "Ribosomes", "Chloroplast", "Golgi Apparatus"],
          correct := 2,
          explanation := "Chloroplasts are unique to plant cells and are responsible for photosynthesis, converting light energy into chemical energy.",
          correctExplanation := "Excellent! Chloroplasts are indeed unique to plant cells.",
          incorrectExplanation := "Not quite. Chloroplasts are the organelles unique to plants.",
          estimatedTime := 45 }
        ⟨0, some 2, false, 0, []⟩).completedQuestions = [] ++ [0] :=
  let q : QuizQuestion :=
    { id := 1,
      question := "Which of the following is unique to plant cells?",
      options := ["Mitochondria", "Ribosomes", "Chloroplast", "Golgi Apparatus"],
      correct := 2,
      explanation := "Chloroplasts are unique to plant cells and are responsible for photosynthesis, converting light energy into chemical energy.",
      correctExplanation := "Excellent! Chloroplasts are indeed unique to plant cells. They contain chlorophyll and are the sites where photosynthesis occurs, converting sunlight, carbon dioxide and water into glucose and oxygen.",
      incorrectExplanation := "Not quite. While mitochondria, ribosomes and Golgi apparatus are found in plant cells, they also exist in animal cells. Chloroplasts are the organelles unique to plants.",
      estimatedTime := 45 }
  ⟨((handleSubmit_spec q ⟨0, some 2, false, 0, []⟩ rfl).2 2 rfl).1,
   ((handleSubmit_spec q ⟨0, some 2, false, 0, []⟩ rfl).2 2 rfl).2.1⟩

/-! ### Timer persistence in localStorage

From `PersistentTimer.tsx` (second document, lines 161–236).  Parsed JSON
values are modelled by `JsValue`; `JSON.parse` itself is an abstract
parameter `parse : String → Option JsValue` where `none` stands for a
thrown `SyntaxError` (swallowed by the surrounding `try`/`catch`). -/

inductive JsValue
  | null
  | bool (b : Bool)
  | num (q : ℚ)
  | str (s : String)
  | arr (l : List JsValue)
  | obj (fields : List (String × JsValue))

/-- Property access `fields[name]` on a parsed JSON object; `JSON.parse`
keeps the last of duplicate keys, hence the `reverse`. -/
def jsObjGet (fs : List (String × JsValue)) (name : String) : Option JsValue :=
  fs.reverse.lookup name

/-- Key order of a stringified object (insertion order). -/
def jsObjKeys : JsValue → List String
  | JsValue.obj fs => fs.map Prod.fst
  | _ => []

/-- Source: `const STORAGE_KEY = 'adhdPersistentTimer'`. -/
def STORAGE_KEY : String := "adhdPersistentTimer"

/-- Shape of `interface SavedTimerState` (lines 167–171). -/
structure SavedTimerState where
  timeLeft : ℚ
  isBreak : Bool
  sessionCount : ℚ
deriving DecidableEq

/-- Function `loadState` of `PersistentTimer.tsx` (lines 186–204):
`raw = none` models a missing key; `!raw` is also truthy for the empty
string; a parse exception returns `null`; the three `typeof` guards
require a number, a boolean and a number.  Accessing a property of a
non-object yields `undefined` (or throws for `null`, caught by the
`try`), so every non-object parse result also yields `null`. -/
def loadState (parse : String → Option JsValue) (raw : Option String) :
    Option SavedTimerState :=
  match raw with
  | none => none
  | some s =>
      if s = "" then none
      else
        match parse s with
        | none => none
        | some (JsValue.obj fs) =>
            match jsObjGet fs "timeLeft", jsObjGet fs "isBreak",
                  jsObjGet fs "sessionCount" with
            | some (JsValue.num tl), some (JsValue.bool ib), some (JsValue.num sc) =>
                some { timeLeft := tl, isBreak := ib, sessionCount := sc }
            | _, _, _ => none
        | some _ => none

/-- The component state produced by the `useState` initialisers
(lines 206–219): saved values when `loadState` succeeds, otherwise the
focus-mode defaults; the running flag always starts `false`. -/
structure PersistentTimerInit where
  timeLeft : ℚ
  isBreak : Bool
  sessionCount : ℚ
  isRunning : Bool
deriving DecidableEq

def initPersistentTimer (focusDuration : ℚ) (saved : Option SavedTimerState) :
    PersistentTimerInit :=
  match saved with
  | some r =>
      { timeLeft := r.timeLeft, isBreak := r.isBreak,
        sessionCount := r.sessionCount, isRunning := false }
  | none =>
      { timeLeft := focusDuration, isBreak := false,
        sessionCount := 0, isRunning := false }

/-- C4: `loadState` returns a saved record exactly when the raw string is
present, non-empty, parses to a JSON object, and that object's
`timeLeft`, `isBreak` and `sessionCount` properties are a number, a
boolean and a number; in every other case it returns `null` and the
initialisers fall back to a full focus duration, focus mode, zero
sessions and a stopped timer. -/
theorem loadState_spec (parse : String → Option JsValue) (raw : Option String) (fd : ℚ) :
    (∀ r, loadState parse raw = some r ↔
      ∃ s fs, raw = some s ∧ s ≠ "" ∧ parse s = some (JsValue.obj fs) ∧
        jsObjGet fs "timeLeft" = some (JsValue.num r.timeLeft) ∧
        jsObjGet fs "isBreak" = some (JsValue.bool r.isBreak) ∧
        jsObjGet fs "sessionCount" = some (JsValue.num r.sessionCount)) ∧
    (loadState parse raw = none →
      initPersistentTimer fd (loadState parse raw) =
        { timeLeft := fd, isBreak := false, sessionCount := 0, isRunning := false }) ∧
    (∀ r, loadState parse raw = some r →
      initPersistentTimer fd (loadState parse raw) =
        { timeLeft := r.timeLeft, isBreak := r.isBreak,
          sessionCount := r.sessionCount, isRunning := false }) := by
  refine ⟨?_, ?_, ?_⟩
  · intro r
    constructor
    · intro h
      cases raw with
      | none => simp [loadState] at h
      | some s =>
          by_cases hs : s = ""
          · simp [loadState, hs] at h
          · cases hp : parse s with
            | none => simp [loadState, hs, hp] at h
            | some v =>
                cases v with
                | obj fs =>
                    simp only [loadState, if_neg hs, hp] at h
                    split at h
                    · rename_i tl ib sc htl hib hsc
                      cases Option.some.inj h
                      exact ⟨s, fs, rfl, hs, hp, htl, hib, hsc⟩
                    · exact absurd h (by simp)
                | null => simp [loadState, hs, hp] at h
                | bool b => simp [loadState, hs, hp] at h
                | num q => simp [loadState, hs, hp] at h
                | str t => simp [loadState, hs, hp] at h
                | arr l => simp [loadState, hs, hp] at h
    · rintro ⟨s, fs, rfl, hs, hp, h1, h2, h3⟩
      simp [loadState, hs, hp, h1, h2, h3]
  · intro h
    rw [h]
    rfl
  · intro r h
    rw [h]
    rfl

/-- Witness for `loadState_spec`: a well-typed stored object is loaded
back as saved. -/
theorem loadState_spec_witness :
    loadState
      (fun _ => some (JsValue.obj
        [("timeLeft", JsValue.num 42), ("isBreak", JsValue.bool true),
         ("sessionCount", JsValue.num 3)]))
      (some "stored") = some { timeLeft := 42, isBreak := true, sessionCount := 3 } :=
  ((loadState_spec
      (fun _ => some (JsValue.obj
        [("timeLeft", JsValue.num 42), ("isBreak", JsValue.bool true),
         ("sessionCount", JsValue.num 3)]))
      (some "stored") 0).1
    { timeLeft := 42, isBreak := true, sessionCount := 3 }).mpr
    ⟨"stored",
     [("timeLeft", JsValue.num 42), ("isBreak", JsValue.bool true),
      ("sessionCount", JsValue.num 3)],
     rfl, by decide, rfl, rfl, rfl, rfl⟩

/-- The persist effect of `PersistentTimer.tsx` (lines 224–236): the
object written under `STORAGE_KEY` clamps `timeLeft` at zero and drops
the running flag. -/
def savedOfTimerState (s : TimerState) : SavedTimerState :=
  { timeLeft := max 0 (s.timeLeft : ℚ), isBreak := s.isBreak,
    sessionCount := (s.sessionCount : ℚ) }

/-- Result of `JSON.stringify(toSave)`: an object with exactly the three
fields, in insertion order. -/
def savedTimerJson (r : SavedTimerState) : JsValue :=
  JsValue.obj
    [("timeLeft", JsValue.num r.timeLeft), ("isBreak", JsValue.bool r.isBreak),
     ("sessionCount", JsValue.num r.sessionCount)]

/-- One run of the persist effect: `writeOk = false` models a throwing
`setItem` (quota exceeded), which the `catch` swallows; the component
state is returned unchanged either way. -/
def persistTimerState (s : TimerState) (writeOk : Bool) (store : Option JsValue) :
    TimerState × Option JsValue :=
  (s, if writeOk then some (savedTimerJson (savedOfTimerState s)) else store)

/-- C10: every record persisted for the timer has exactly the fields
`timeLeft`, `isBreak`, `sessionCount` with `timeLeft` clamped to be
non-negative; the running flag is never part of the record, and a failed
write changes neither the store nor the in-memory state. -/
theorem persistTimer_spec (s : TimerState) (ok : Bool) (store : Option JsValue) :
    (persistTimerState s ok store).1 = s ∧
    (ok = false → (persistTimerState s ok store).2 = store) ∧
    (ok = true →
      (persistTimerState s ok store).2 = some (savedTimerJson (savedOfTimerState s))) ∧
    jsObjKeys (savedTimerJson (savedOfTimerState s))
      = ["timeLeft", "isBreak", "sessionCount"] ∧
    0 ≤ (savedOfTimerState s).timeLeft ∧
    (∀ b, savedOfTimerState { s with isRunning := b } = savedOfTimerState s) ∧
    STORAGE_KEY = "adhdPersistentTimer" := by
  refine ⟨rfl, ?_, ?_, rfl, le_max_left 0 _, fun b => rfl, rfl⟩
  · intro h
    simp [persistTimerState, h]
  · intro h
    simp [persistTimerState, h]

/-- Witness for `persistTimer_spec`: a failed write on a negative
`timeLeft` keeps the store, and the clamped field is non-negative. -/
theorem persistTimer_spec_witness :
    (persistTimerState ⟨-3, true, false, 2⟩ false none).2 = none ∧
    0 ≤ (savedOfTimerState ⟨-3, true, false, 2⟩).timeLeft :=
  ⟨(persistTimer_spec ⟨-3, true, false, 2⟩ false none).2.1 rfl,
   (persistTimer_spec ⟨-3, true, false, 2⟩ false none).2.2.2.2.1⟩

/-! ### Bionic reading text transform

From `BionicReader.tsx`: `processBionicText` (lines 207–231) splits the
text on runs of whitespace (`text.split(/\s+/)`), separates each token
into its word characters (`\w`) and its non-word characters, wraps a
prefix of the word characters in `<strong>` tags and re-joins the tokens
with single spaces. -/

/-- A regex `\w` character: `[A-Za-z0-9_]`. -/
def isWordChar (c : Char) : Bool :=
  ('A' ≤ c && c ≤ 'Z') || ('a' ≤ c && c ≤ 'z') || ('0' ≤ c && c ≤ '9') || c == '_'

/-- A regex `\s` character: ECMAScript WhiteSpace and LineTerminator
code points. -/
def isJsSpace (c : Char) : Bool :=
  c == ' ' || c == '\t' || c == '\n' || c == '\r' ||
  c.toNat == 0x0b || c.toNat == 0x0c || c.toNat == 0xa0 || c.toNat == 0x1680 ||
  (0x2000 ≤ c.toNat && c.toNat ≤ 0x200a) ||
  c.toNat == 0x2028 || c.toNat == 0x2029 || c.toNat == 0x202f ||
  c.toNat == 0x205f || c.toNat == 0x3000 || c.toNat == 0xfeff

/-- Model of `text.split(/\s+/)`: the separators are the maximal
whitespace runs, a leading (resp. trailing) run contributes a leading
(resp. trailing) empty token, and the empty text yields one empty
token. -/
def splitWs : List Char → List (List Char)
  | [] => [[]]
  | [c] => if isJsSpace c then [[], []] else [[c]]
  | c :: c2 :: t =>
      if isJsSpace c then
        (if isJsSpace c2 then splitWs (c2 :: t) else [] :: splitWs (c2 :: t))
      else
        match splitWs (c2 :: t) with
        | [] => [[c]]
        | w :: ws => (c :: w) :: ws

/-- Conversion of a possibly negative `slice` index: a non-negative
index is clamped to the length, a negative one counts from the end
(clamped at zero).  `cleanWord.slice(0, i)` ends and `cleanWord.slice(i)`
starts at the same resolved position. -/
def jsIndex (len : ℕ) (i : ℤ) : ℕ :=
  if 0 ≤ i then min i.toNat len else ((len : ℤ) + i).toNat

/-- Number of characters to bold: `Math.ceil(cleanWord.length * boldRatio)`,
overridden to `1` for words of at most three letters and capped at `2`
for words of four or five letters. -/
def bionicBoldLength (len : ℕ) (r : ℚ) : ℤ :=
  let bl := ⌈(len : ℚ) * r⌉
  if len ≤ 3 then 1 else if len ≤ 5 then min 2 bl else bl

def tagOpen : List Char := ['<', 's', 't', 'r', 'o', 'n', 'g', '>']

def tagClose : List Char := ['<', '/', 's', 't', 'r', 'o', 'n', 'g', '>']

/-- Per-token body of `processBionicText`: strip the token into word
characters (`cleanWord`) and the rest (`punctuation`), return the token
unchanged when no word character is present, otherwise emit
`<strong>${boldPart}</strong>${restPart}${punctuation}`. -/
def bionicWord (r : ℚ) (w : List Char) : List Char :=
  let cleanWord := w.filter isWordChar
  let punctuation := w.filter (fun c => !(isWordChar c))
  if cleanWord.length = 0 then w
  else
    let n := jsIndex cleanWord.length (bionicBoldLength cleanWord.length r)
    tagOpen ++ cleanWord.take n ++ tagClose ++ cleanWord.drop n ++ punctuation

/-- Model of `Array.prototype.join(' ')`. -/
def joinSpace : List (List Char) → List Char
  | [] => []
  | [w] => w
  | w :: w2 :: ws => w ++ ' ' :: joinSpace (w2 :: ws)

def processBionicTextL (l : List Char) (r : ℚ) : List Char :=
  joinSpace ((splitWs l).map (bionicWord r))

/-- Function `processBionicText` of `BionicReader.tsx` (lines 207–231). -/
def processBionicText (text : String) (boldR : ℚ) : String :=
  ⟨processBionicTextL text.data boldR⟩

/-- Whether `pat` is an initial segment of the second list. -/
def startsWithChars : List Char → List Char → Bool
  | [], _ => true
  | _ :: _, [] => false
  | p :: ps, c :: cs => p == c && startsWithChars ps cs

/-- Removal of the inserted `</strong>` and `<strong>` markers from a
character list, scanning left to right. -/
def stripTags : List Char → List Char
  | [] => []
  | c :: rest =>
      if startsWithChars tagClose (c :: rest) then stripTags (rest.drop 8)
      else if startsWithChars tagOpen (c :: rest) then stripTags (rest.drop 7)
      else c :: stripTags rest
termination_by l => l.length
decreasing_by
  · simp only [List.length_drop, List.length_cons]
    omega
  · simp only [List.length_drop, List.length_cons]
    omega
  · simp only [List.length_cons]
    omega

/-- The text that tag removal actually recovers: tokens re-joined by
single spaces, each token's word characters in front of its non-word
characters. -/
def bionicPlain (l : List Char) : List Char :=
  joinSpace ((splitWs l).map
    (fun w => w.filter isWordChar ++ w.filter (fun c => !(isWordChar c))))

theorem startsWithChars_cons (p c : Char) (ps cs : List Char) :
    startsWithChars (p :: ps) (c :: cs) = (p == c && startsWithChars ps cs) := rfl

/-- Tag removal keeps a marker-free head segment. -/
theorem stripTags_cons_of_ne (c : Char) (l : List Char) (hc : c ≠ '<') :
    stripTags (c :: l) = c :: stripTags l := by
  have h0 : (('<' : Char) == c) = false := beq_eq_false_iff_ne.mpr (Ne.symm hc)
  rw [stripTags]
  rw [show startsWithChars tagClose (c :: l) = false by
        rw [tagClose, startsWithChars_cons, h0, Bool.false_and]]
  rw [show startsWithChars tagOpen (c :: l) = false by
        rw [tagOpen, startsWithChars_cons, h0, Bool.false_and]]
  simp

theorem stripTags_append_left (l1 l2 : List Char) (h : '<' ∉ l1) :
    stripTags (l1 ++ l2) = l1 ++ stripTags l2 := by
  induction l1 with
  | nil => simp
  | cons c t ih =>
      have hc : c ≠ '<' := fun e => h (e ▸ List.mem_cons_self c t)
      rw [List.cons_append, stripTags_cons_of_ne c _ hc,
          ih (fun hm => h (List.mem_cons_of_mem _ hm)), List.cons_append]

theorem stripTags_tagOpen (l : List Char) :
    stripTags (tagOpen ++ l) = stripTags l := by
  show stripTags ('<' :: 's' :: 't' :: 'r' :: 'o' :: 'n' :: 'g' :: '>' :: l) = stripTags l
  rw [stripTags]
  simp [startsWithChars, tagOpen, tagClose]

theorem stripTags_tagClose (l : List Char) :
    stripTags (tagClose ++ l) = stripTags l := by
  show stripTags ('<' :: '/' :: 's' :: 't' :: 'r' :: 'o' :: 'n' :: 'g' :: '>' :: l)
      = stripTags l
  rw [stripTags]
  simp [startsWithChars, tagOpen, tagClose]

/-- Stripping the tags from one processed token followed by anything
recovers the token's word characters, then its non-word characters. -/
theorem stripTags_bionicWord (r : ℚ) (w : List Char) (hw : '<' ∉ w) (l2 : List Char) :
    stripTags (bionicWord r w ++ l2)
      = (w.filter isWordChar ++ w.filter (fun c => !(isWordChar c))) ++ stripTags l2 := by
  have hlt : isWordChar '<' = false := by decide
  by_cases h0 : (w.filter isWordChar).length = 0
  · have hf : w.filter isWordChar = [] := List.length_eq_zero.mp h0
    have hnf : w.filter (fun c => !(isWordChar c)) = w := by
      apply List.filter_eq_self.mpr
      intro c hc
      by_contra hcc
      have hcw : isWordChar c = true := by
        cases hh : isWordChar c with
        | true => rfl
        | false => exact absurd (by simp [hh]) hcc
      have : c ∈ w.filter isWordChar := List.mem_filter.mpr ⟨hc, hcw⟩
      simp [hf] at this
    rw [show bionicWord r w = w by simp [bionicWord, h0]]
    rw [stripTags_append_left w l2 hw, hf, hnf, List.nil_append]
  · have hbold : '<' ∉ (w.filter isWordChar).take
        (jsIndex (w.filter isWordChar).length
          (bionicBoldLength (w.filter isWordChar).length r)) := by
      intro hm
      have := List.mem_filter.mp (List.mem_of_mem_take hm)
      rw [hlt] at this
      exact absurd this.2 (by simp)
    have hrest : '<' ∉ (w.filter isWordChar).drop
        (jsIndex (w.filter isWordChar).length
          (bionicBoldLength (w.filter isWordChar).length r)) := by
      intro hm
      have := List.mem_filter.mp (List.mem_of_mem_drop hm)
      rw [hlt] at this
      exact absurd this.2 (by simp)
    have hpunct : '<' ∉ w.filter (fun c => !(isWordChar c)) := by
      intro hm
      exact hw (List.mem_filter.mp hm).1
    rw [show bionicWord r w
          = tagOpen ++ ((w.filter isWordChar).take
              (jsIndex (w.filter isWordChar).length
                (bionicBoldLength (w.filter isWordChar).length r))
            ++ (tagClose ++ ((w.filter isWordChar).drop
              (jsIndex (w.filter isWordChar).length
                (bionicBoldLength (w.filter isWordChar).length r))
            ++ w.filter (fun c => !(isWordChar c))))) by
        simp [bionicWord, h0]]
    rw [List.append_assoc tagOpen, stripTags_tagOpen]
    rw [List.append_assoc, stripTags_append_left _ _ hbold]
    rw [List.append_assoc, stripTags_tagClose]
    rw [List.append_assoc, stripTags_append_left _ _ hrest]
    rw [stripTags_append_left _ _ hpunct]
    rw [← List.append_assoc, ← List.append_assoc, List.take_append_drop,
        List.append_assoc]

/-- Every character of a token produced by `splitWs` occurs in the split
text. -/
theorem mem_of_mem_splitWs (l : List Char) :
    ∀ w ∈ splitWs l, ∀ c ∈ w, c ∈ l := by
  induction l with
  | nil =>
      intro w hw c hc
      simp [splitWs] at hw
      subst hw
      simp at hc
  | cons a t ih =>
      intro w hw c hc
      cases t with
      | nil =>
          by_cases ha : isJsSpace a
          · simp [splitWs, ha] at hw
            rcases hw with rfl | rfl <;> simp at hc
          · simp [splitWs, ha] at hw
            subst hw
            simp at hc
            simp [hc]
      | cons b t2 =>
          by_cases ha : isJsSpace a
          · by_cases hb : isJsSpace b
            · rw [show splitWs (a :: b :: t2) = splitWs (b :: t2) by
                    simp [splitWs, ha, hb]] at hw
              exact List.mem_cons_of_mem a (ih w hw c hc)
            · rw [show splitWs (a :: b :: t2) = [] :: splitWs (b :: t2) by
                    simp [splitWs, ha, hb]] at hw
              rcases List.mem_cons.mp hw with rfl | hw2
              · simp at hc
              · exact List.mem_cons_of_mem a (ih w hw2 c hc)
          · cases hsp : splitWs (b :: t2) with
            | nil =>
                rw [show splitWs (a :: b :: t2) = [[a]] by
                      simp [splitWs, ha, hsp]] at hw
                simp at hw
                subst hw
                simp at hc
                simp [hc]
            | cons w1 ws1 =>
                rw [show splitWs (a :: b :: t2) = (a :: w1) :: ws1 by
                      simp [splitWs, ha, hsp]] at hw
                rcases List.mem_cons.mp hw with rfl | hw2
                · rcases List.mem_cons.mp hc with rfl | hc2
                  · exact List.mem_cons_self c _
                  · exact List.mem_cons_of_mem a
                      (ih w1 (hsp ▸ List.mem_cons_self w1 ws1) c hc2)
                · exact List.mem_cons_of_mem a
                    (ih w (hsp ▸ List.mem_cons_of_mem w1 hw2) c hc)

/-- Stripping the tags from the joined processed tokens yields the
joined plain tokens. -/
theorem stripTags_joinSpace (r : ℚ) (ts : List (List Char)) (h : ∀ w ∈ ts, '<' ∉ w) :
    stripTags (joinSpace (ts.map (bionicWord r)))
      = joinSpace (ts.map
          (fun w => w.filter isWordChar ++ w.filter (fun c => !(isWordChar c)))) := by
  induction ts with
  | nil => simp [joinSpace, stripTags]
  | cons w ws ih =>
      cases ws with
      | nil =>
          show stripTags (joinSpace [bionicWord r w]) = _
          rw [show joinSpace [bionicWord r w] = bionicWord r w ++ [] by
                simp [joinSpace]]
          rw [stripTags_bionicWord r w (h w (List.mem_cons_self w [])) []]
          simp [joinSpace, stripTags]
      | cons w2 ws2 =>
          show stripTags (bionicWord r w ++ ' ' :: joinSpace ((w2 :: ws2).map (bionicWord r)))
              = _
          rw [stripTags_bionicWord r w (h w (List.mem_cons_self w _)) _]
          rw [stripTags_cons_of_ne ' ' _ (by decide)]
          rw [ih (fun x hx => h x (List.mem_cons_of_mem _ hx))]
          rfl

/-- C2 (amended): for every text that does not itself contain the marker
character `<` (so that removing markers is unambiguous) and every bold
ratio, removing the inserted `<strong>` and `</strong>` markers from
`processBionicText` yields the input with every maximal whitespace run
replaced by a single space and, inside each whitespace-delimited token,
the word characters (in order) moved in front of the non-word characters
(in order) — not the input text itself: punctuation placement and
whitespace are not preserved. -/
theorem processBionicText_strip (text : String) (r : ℚ) (h : '<' ∉ text.data) :
    stripTags (processBionicText text r).data = bionicPlain text.data := by
  show stripTags (processBionicTextL text.data r) = bionicPlain text.data
  exact stripTags_joinSpace r (splitWs text.data)
    (fun w hw hc => h (mem_of_mem_splitWs text.data w hw '<' hc))

/-- Witness for `processBionicText_strip` on `"(hi)"` with the default
ratio `0.4`. -/
theorem processBionicText_strip_witness :
    stripTags (processBionicText "(hi)" (2 / 5)).data = bionicPlain "(hi)".data :=
  processBionicText_strip "(hi)" (2 / 5) (by decide)

/-- C2 fails as stated: on the input `"(hi)"` (any ratio, here `0.4`)
the transform emits `<strong>h</strong>i()`, so removing the markers
gives `hi()` — the parentheses have moved behind the word. -/
theorem processBionicText_counterexample :
    ¬ (stripTags (processBionicText "(hi)" (2 / 5)).data = "(hi)".data) := by
  have heq : stripTags (processBionicText "(hi)" (2 / 5)).data = bionicPlain "(hi)".data :=
    stripTags_joinSpace (2 / 5) (splitWs "(hi)".data) (by decide)
  rw [heq]
  decide

/-- C9: for a token with at least one word character and a bold ratio
strictly between 0 and 1, the computed bold length is between 1 and the
cleaned word's length (exactly 1 for lengths up to three, at most 2 for
lengths four and five), and the bold prefix concatenated with the
remainder is exactly the cleaned word. -/
theorem bionicBoldLength_spec (w : List Char) (r : ℚ)
    (hne : w.filter isWordChar ≠ []) (h0 : 0 < r) (h1 : r < 1) :
    1 ≤ bionicBoldLength (w.filter isWordChar).length r ∧
    bionicBoldLength (w.filter isWordChar).length r ≤ ((w.filter isWordChar).length : ℤ) ∧
    ((w.filter isWordChar).length ≤ 3 →
      bionicBoldLength (w.filter isWordChar).length r = 1) ∧
    (4 ≤ (w.filter isWordChar).length → (w.filter isWordChar).length ≤ 5 →
      bionicBoldLength (w.filter isWordChar).length r ≤ 2) ∧
    (w.filter isWordChar).take
        (jsIndex (w.filter isWordChar).length
          (bionicBoldLength (w.filter isWordChar).length r)) ++
      (w.filter isWordChar).drop
        (jsIndex (w.filter isWordChar).length
          (bionicBoldLength (w.filter isWordChar).length r))
      = w.filter isWordChar := by
  have hn : 1 ≤ (w.filter isWordChar).length := List.length_pos.mpr hne
  have hceil1 : 1 ≤ ⌈((w.filter isWordChar).length : ℚ) * r⌉ := by
    have hpos : (0 : ℚ) < ((w.filter isWordChar).length : ℚ) * r :=
      mul_pos (by exact_mod_cast hn) h0
    have := Int.ceil_pos.mpr hpos
    omega
  have hceilN : ⌈((w.filter isWordChar).length : ℚ) * r⌉
      ≤ ((w.filter isWordChar).length : ℤ) := by
    apply Int.ceil_le.mpr
    push_cast
    exact mul_le_of_le_one_right (by positivity) h1.le
  refine ⟨?_, ?_, ?_, ?_, List.take_append_drop _ _⟩
  · rcases le_or_lt (w.filter isWordChar).length 3 with h3 | h3
    · simp [bionicBoldLength, h3]
    · rcases le_or_lt (w.filter isWordChar).length 5 with h5 | h5
      · simp only [bionicBoldLength, if_neg (by omega : ¬ (w.filter isWordChar).length ≤ 3),
          if_pos h5]
        omega
      · simp only [bionicBoldLength, if_neg (by omega : ¬ (w.filter isWordChar).length ≤ 3),
          if_neg (by omega : ¬ (w.filter isWordChar).length ≤ 5)]
        omega
  · rcases le_or_lt (w.filter isWordChar).length 3 with h3 | h3
    · simp only [bionicBoldLength, if_pos h3]
      omega
    · rcases le_or_lt (w.filter isWordChar).length 5 with h5 | h5
      · simp only [bionicBoldLength, if_neg (by omega : ¬ (w.filter isWordChar).length ≤ 3),
          if_pos h5]
        omega
      · simp only [bionicBoldLength, if_neg (by omega : ¬ (w.filter isWordChar).length ≤ 3),
          if_neg (by omega : ¬ (w.filter isWordChar).length ≤ 5)]
        omega
  · intro h3
    simp [bionicBoldLength, h3]
  · intro h4 h5
    simp only [bionicBoldLength, if_neg (by omega : ¬ (w.filter isWordChar).length ≤ 3),
      if_pos h5]
    omega

/-- Witness for `bionicBoldLength_spec` on the five-letter word
`"hello"` with ratio `0.4`. -/
theorem bionicBoldLength_spec_witness :
    1 ≤ bionicBoldLength ("hello".data.filter isWordChar).length (2 / 5) ∧
    bionicBoldLength ("hello".data.filter isWordChar).length (2 / 5)
      ≤ (("hello".data.filter isWordChar).length : ℤ) ∧
    (("hello".data.filter isWordChar).length ≤ 3 →
      bionicBoldLength ("hello".data.filter isWordChar).length (2 / 5) = 1) ∧
    (4 ≤ ("hello".data.filter isWordChar).length →
      ("hello".data.filter isWordChar).length ≤ 5 →
      bionicBoldLength ("hello".data.filter isWordChar).length (2 / 5) ≤ 2) ∧
    ("hello".data.filter isWordChar).take
        (jsIndex ("hello".data.filter isWordChar).length
          (bionicBoldLength ("hello".data.filter isWordChar).length (2 / 5))) ++
      ("hello".data.filter isWordChar).drop
        (jsIndex ("hello".data.filter isWordChar).length
          (bionicBoldLength ("hello".data.filter isWordChar).length (2 / 5)))
      = "hello".data.filter isWordChar :=
  bionicBoldLength_spec "hello".data (2 / 5) (by decide) (by norm_num) (by norm_num)

end DECO
